import Mathlib

/-!
Shallow embedding of the "tictactoe_extreme" Ultimate Tic-Tac-Toe engine and
its data-provider layer, translated from the Rust sources:
  - src/generic/{player, field, move, gamestate, game_data}.rs
  - src/generic/boards/{matrix_checker, sub_board, board}.rs
  - src/data_provider/providers/{cache_provider, redis_provider}.rs
Machine ints are modelled as Nat (all indices are usize and stay tiny),
Uuid as Nat, panics (expect/unwrap, out-of-range Array2 indexing) as Option
none, and Rust Result as Except.  A 3x3 ndarray Array2 is modelled as a
total function out of Fin 3 x Fin 3; the raw usize indexing of Array2 is
modelled by Mat3.nget, which returns none exactly where Array2 would panic.
-/

set_option maxHeartbeats 1000000

namespace Tictactoe

/-- src/generic/player.rs: enum Player. -/
inductive Player : Type
  | X : Player
  | O : Player
  deriving DecidableEq, Repr, Fintype

/-- Player::other. -/
def Player.other : Player → Player
  | Player.X => Player.O
  | Player.O => Player.X

/-- src/generic/field.rs: tri-state cell value. -/
inductive Field : Type
  | Vacant : Field
  | Occupied (player : Player) : Field
  | Disabled : Field
  deriving DecidableEq, Repr, Fintype

/-- src/generic/gamestate.rs: enum GameState. -/
inductive GameState : Type
  | Won (winner : Player) : GameState
  | Draw : GameState
  | InProgress (next_player : Player) : GameState
  deriving DecidableEq, Repr

/-- GameState::is_in_progress. -/
def GameState.is_in_progress : GameState → Bool
  | GameState.InProgress _ => true
  | _ => false

/-- src/generic/move.rs: type Coordinates = (usize, usize). -/
abbrev Coordinates : Type := Nat × Nat

/-- src/generic/move.rs: struct Move. -/
structure Move : Type where
  coordinates : Coordinates
  player : Player
  deriving DecidableEq, Repr

/-- Move::new. -/
def Move.new (coordinates : Coordinates) (player : Player) : Move :=
  ⟨coordinates, player⟩

/-- src/generic/game_data.rs: struct GameData (Uuid modelled as Nat). -/
structure GameData : Type where
  moves : List Move
  game_id : Nat
  deriving DecidableEq, Repr

/-- GameData::new_with_id. -/
def GameData.new_with_id (id : Nat) : GameData :=
  ⟨[], id⟩

/-- A 3x3 ndarray Array2, modelled as a total function. -/
abbrev Mat3 (α : Type) : Type := Fin 3 → Fin 3 → α

/-- Raw usize indexing `m[(i, j)]` of an Array2: some value in bounds,
none exactly where the Rust would panic. -/
def Mat3.nget {α : Type} (m : Mat3 α) (i j : Nat) : Option α :=
  if hi : i < 3 then
    if hj : j < 3 then some (m ⟨i, hi⟩ ⟨j, hj⟩) else none
  else none

/-- In-place update `m[(i, j)] = g (m[(i, j)])` of an Array2 cell
(no-op out of bounds; every use site is bounds-checked first). -/
def Mat3.nmodify {α : Type} (m : Mat3 α) (i j : Nat) (g : α → α) : Mat3 α :=
  fun i' j' => if i'.val = i ∧ j'.val = j then g (m i' j') else m i' j'

/-! ## src/generic/boards/matrix_checker.rs -/

/-- struct WinnerRegisterer: keeps the first registered winner. -/
def WinnerRegisterer.register (w : Option Player) (player : Option Player) : Option Player :=
  if w.isNone && player.isSome then player else w

/-- fn get_winner_in_row: the row/column/diagonal view is modelled as the
list of its fields; returns the player iff every field equals the first
one and that field is Occupied. -/
def get_winner_in_row (line : List Field) : Option Player :=
  match line.head? with
  | none => none
  | some potential_winner =>
    if line.all (fun f => decide (f = potential_winner)) then
      match potential_winner with
      | Field.Occupied player => some player
      | _ => none
    else none

/-- matrix.diag(). -/
def diag_of (m : Mat3 Field) : List Field := [m 0 0, m 1 1, m 2 2]

/-- matrix.slice(s![..;-1, ..]).diag(): the anti-diagonal. -/
def anti_diag_of (m : Mat3 Field) : List Field := [m 2 0, m 1 1, m 0 2]

/-- One row of the matrix. -/
def row_of (m : Mat3 Field) (i : Fin 3) : List Field := [m i 0, m i 1, m i 2]

/-- One column of the matrix. -/
def col_of (m : Mat3 Field) (j : Fin 3) : List Field := [m 0 j, m 1 j, m 2 j]

/-- The lines of check_matrix in its fixed scan order: main diagonal,
anti-diagonal, rows top-to-bottom, columns left-to-right. -/
def scan_lines (m : Mat3 Field) : List (List Field) :=
  [diag_of m, anti_diag_of m,
   row_of m 0, row_of m 1, row_of m 2,
   col_of m 0, col_of m 1, col_of m 2]

/-- matrix.iter() (row-major cell enumeration). -/
def matrix_cells (m : Mat3 Field) : List Field :=
  row_of m 0 ++ row_of m 1 ++ row_of m 2

/-- fn check_matrix: register every line's winner in scan order into a
WinnerRegisterer; if none won, Draw when no cell is Vacant, otherwise
InProgress(next_player). -/
def check_matrix (m : Mat3 Field) (next_player : Player) : GameState :=
  let winner :=
    (scan_lines m).foldl
      (fun w line => WinnerRegisterer.register w (get_winner_in_row line)) none
  match winner with
  | some w => GameState.Won w
  | none =>
    if (matrix_cells m).all (fun f => decide (¬f = Field.Vacant)) then GameState.Draw
    else GameState.InProgress next_player

/-! ## src/generic/boards/sub_board.rs -/

/-- struct SubBoard: a 3x3 grid of Field plus the (never-updated) cached
state field. -/
structure SubBoard : Type where
  data : Mat3 Field
  state : Field

/-- SubBoard::SIZE. -/
def SubBoard.SIZE : Coordinates := (3, 3)

/-- SubBoard::new. -/
def SubBoard.new : SubBoard :=
  ⟨fun _ _ => Field.Vacant, Field.Vacant⟩

/-- SubBoard::get_state. -/
def SubBoard.get_state (sb : SubBoard) (next_player : Player) : GameState :=
  check_matrix sb.data next_player

/-! ## src/generic/boards/board.rs -/

/-- enum InvalidMove. -/
inductive InvalidMove : Type
  | FieldOccupied : InvalidMove
  | SubBoardNotActive : InvalidMove
  | GameEnded : InvalidMove
  | OutOfBounds : InvalidMove
  | NotYourTurn : InvalidMove
  deriving DecidableEq, Repr

/-- struct Board (Uuid modelled as Nat). -/
structure Board : Type where
  data : Mat3 SubBoard
  moves : List Move
  game_id : Nat

/-- Board::SIZE. -/
def Board.SIZE : Coordinates := (3, 3)

/-- Board::new_with_id. -/
def Board.new_with_id (id : Nat) : Board :=
  ⟨fun _ _ => SubBoard.new, [], id⟩

/-- Board::get_next_player: opponent of the last move's player, X if no
moves yet. -/
def Board.get_next_player (b : Board) : Player :=
  match b.moves.getLast? with
  | some last_move => last_move.player.other
  | none => Player.X

/-- Board::get_subboard_for_move: splits a full-board coordinate into
(sub-board index, field index within the sub-board). -/
def Board.get_subboard_for_move (coordinates : Coordinates) :
    Option (Coordinates × Coordinates) :=
  let subboard_row := coordinates.1 / SubBoard.SIZE.1
  let subboard_column := coordinates.2 / SubBoard.SIZE.2
  let field_row := coordinates.1 - subboard_row * SubBoard.SIZE.1
  let field_column := coordinates.2 - subboard_column * SubBoard.SIZE.2
  some ((subboard_row, subboard_column), (field_row, field_column))

/-- Board::get_abstracted_board: each SubBoard reduced to a single Field. -/
def Board.get_abstracted_board (b : Board) : Mat3 Field :=
  let next_player := b.get_next_player
  fun i j =>
    match (b.data i j).get_state next_player with
    | GameState.InProgress _ => Field.Vacant
    | GameState.Draw => Field.Disabled
    | GameState.Won winner => Field.Occupied winner

/-- Board::get_state. -/
def Board.get_state (b : Board) : GameState :=
  check_matrix b.get_abstracted_board b.get_next_player

/-- The full 9x9 coordinate enumeration of get_allowed_moves:
(0..9).cartesian_product(0..9), row-major. -/
def full_board_coords : List Coordinates :=
  (List.range (Board.SIZE.1 * SubBoard.SIZE.1)).flatMap fun row =>
    (List.range (Board.SIZE.2 * SubBoard.SIZE.2)).map fun column => (row, column)

/-- The limiting-sub-board computation at the top of get_allowed_moves:
the field index of the last move names the sub-board the next move must be
played in, unless that sub-board's abstracted state is not Vacant. -/
def Board.limiting_subboard (b : Board) (current_states : Mat3 Field) :
    Option Coordinates :=
  match b.moves.getLast? with
  | none => none
  | some last_move =>
    match Board.get_subboard_for_move last_move.coordinates with
    | none => none
    | some (_subboard_index, field_index) =>
      if Mat3.nget current_states field_index.1 field_index.2 = some Field.Vacant then
        some field_index
      else none

/-- The per-coordinate test of the get_allowed_moves loop: skip coordinates
outside the limiting sub-board (when one is set), then require both the
sub-board's abstracted state and the field itself to be Vacant. -/
def Board.allowed_move_check (b : Board) (limiting_subboard : Option Coordinates)
    (current_states : Mat3 Field) (coordinates : Coordinates) : Bool :=
  match Board.get_subboard_for_move coordinates with
  | none => false
  | some (subboard_index, field_index) =>
    (decide (limiting_subboard = none) || decide (some subboard_index = limiting_subboard)) &&
    decide (Mat3.nget current_states subboard_index.1 subboard_index.2 = some Field.Vacant) &&
    (match Mat3.nget b.data subboard_index.1 subboard_index.2 with
     | none => false
     | some sub_board =>
       decide (Mat3.nget sub_board.data field_index.1 field_index.2 = some Field.Vacant))

/-- Board::get_allowed_moves. -/
def Board.get_allowed_moves (b : Board) : List Coordinates :=
  let current_states := b.get_abstracted_board
  let limiting := b.limiting_subboard current_states
  full_board_coords.filter (b.allowed_move_check limiting current_states)

/-- The cell lookup self.data[subboard_index].data[field_index] used by
validate_move and get_allowed_moves (none where Array2 would panic). -/
def Board.cellAt (b : Board) (coordinates : Coordinates) : Option Field :=
  match Board.get_subboard_for_move coordinates with
  | none => none
  | some (subboard_index, field_index) =>
    match Mat3.nget b.data subboard_index.1 subboard_index.2 with
    | none => none
    | some sub_board => Mat3.nget sub_board.data field_index.1 field_index.2

/-- Board::validate_move, with the source's rejection order. -/
def Board.validate_move (b : Board) (new_move : Move) : Except InvalidMove Unit :=
  if b.get_next_player ≠ new_move.player then Except.error InvalidMove.NotYourTurn
  else if (b.get_state).is_in_progress = false then Except.error InvalidMove.GameEnded
  else if Board.SIZE.1 * SubBoard.SIZE.1 ≤ new_move.coordinates.1 ∨
      Board.SIZE.2 * SubBoard.SIZE.2 ≤ new_move.coordinates.2 then
    Except.error InvalidMove.OutOfBounds
  else if b.cellAt new_move.coordinates ≠ some Field.Vacant then
    Except.error InvalidMove.FieldOccupied
  else if new_move.coordinates ∉ b.get_allowed_moves then
    Except.error InvalidMove.SubBoardNotActive
  else Except.ok ()

/-- Board::render_move: sets the target cell of the target sub-board to
Occupied(player).  Returns the result together with the board after the
call, mirroring the &mut self receiver. -/
def Board.render_move (b : Board) (m : Move) : Except InvalidMove Unit × Board :=
  match Board.get_subboard_for_move m.coordinates with
  | none => (Except.error InvalidMove.OutOfBounds, b)
  | some (subboard_index, field_index) =>
    (Except.ok (),
     { b with
        data := Mat3.nmodify b.data subboard_index.1 subboard_index.2 fun sb =>
          { sb with
             data := Mat3.nmodify sb.data field_index.1 field_index.2 fun _ =>
               Field.Occupied m.player } })

/-- Board::insert_move: validate, push the move, render it.  Returns the
result together with the board after the call, mirroring &mut self. -/
def Board.insert_move (b : Board) (coordinates : Coordinates) (player : Player) :
    Except InvalidMove Unit × Board :=
  let new_move := Move.new coordinates player
  match b.validate_move new_move with
  | Except.error e => (Except.error e, b)
  | Except.ok _ =>
    let pushed := { b with moves := b.moves ++ [new_move] }
    match pushed.render_move new_move with
    | (Except.error e, b2) => (Except.error e, b2)
    | (Except.ok _, b2) => (Except.ok (), b2)

/-- Replaying a list of moves through insert_move from a given board;
none models the `.expect("Invalid move in game data")` panic of
`impl From<GameData> for Board`. -/
def Board.replay (b : Board) (ms : List Move) : Option Board :=
  ms.foldlM
    (fun b m =>
      match b.insert_move m.coordinates m.player with
      | (Except.ok _, b') => some b'
      | (Except.error _, _) => none) b

/-- Building a board from scratch by replaying moves (the reachable
boards of the engine). -/
def Board.applyMoves (id : Nat) (ms : List Move) : Option Board :=
  Board.replay (Board.new_with_id id) ms

/-- impl From of GameData for Board: replay every stored move in order,
panicking (none) on the first invalid one. -/
def Board.fromGameData (game_data : GameData) : Option Board :=
  Board.applyMoves game_data.game_id game_data.moves

/-- impl Into of GameData for Board: project the move list and the id. -/
def Board.toGameData (b : Board) : GameData :=
  ⟨b.moves, b.game_id⟩

/-! ## src/data_provider/providers/cache_provider.rs -/

/-- The per-game slice of a backend's store: game id (Uuid as Nat) to the
stored move history.  GameData's id component is the key itself, so only
the move list is stored. -/
abbrev Store : Type := Nat → Option (List Move)

/-- Updating one game's stored history. -/
def Store.set (s : Store) (game_id : Nat) (ms : List Move) : Store :=
  fun k => if k = game_id then some ms else s k

/-- enum CacheProviderErrorKind. -/
inductive CacheProviderErrorKind : Type
  | LockError : CacheProviderErrorKind
  | KeyNotFound : CacheProviderErrorKind
  | GameExists : CacheProviderErrorKind
  deriving DecidableEq, Repr

/-- A registered tokio watch sender: the receiver-side liveness (a send
fails iff every receiver was dropped) and the latest stored value. -/
structure WatchChannel : Type where
  receiver_dropped : Bool
  value : List Move

/-- watch::Sender::send: fails iff the receiver side is gone, otherwise
replaces the latest value (latest-value semantics). -/
def WatchChannel.send (c : WatchChannel) (v : List Move) : Option WatchChannel :=
  if c.receiver_dropped then none else some { c with value := v }

/-- struct CacheProvider: the hash_map of games and the per-game
subscriber channels (both behind mutexes; lock acquisition is modelled as
always succeeding, there being a single caller). -/
structure CacheState : Type where
  hash_map : Store
  channels : Nat → List WatchChannel

/-- Registering channels for one game id. -/
def CacheState.set_channels (st : CacheState) (game_id : Nat)
    (cs : List WatchChannel) : CacheState :=
  { st with channels := fun k => if k = game_id then cs else st.channels k }

/-- CacheProvider::get_game_data. -/
def CacheProvider.get_game_data (st : CacheState) (game_id : Nat) :
    Except CacheProviderErrorKind (List Move) :=
  match st.hash_map game_id with
  | some game_data => Except.ok game_data
  | none => Except.error CacheProviderErrorKind.KeyNotFound

/-- The subscriber notification loop of CacheProvider::add_move:
`channels.iter().for_each(|channel| channel.send(...).unwrap())` — the
unwrap panics (none) at the first channel whose receiver was dropped. -/
def notify_channels (cs : List WatchChannel) (v : List Move) :
    Option (List WatchChannel) :=
  cs.mapM (fun c => c.send v)

/-- CacheProvider::add_move: and_modify pushes onto an existing entry
(KeyNotFound if absent), then every registered subscriber channel is sent
the new snapshot; the outer none models the panic of the unwrap on a
failed send.  Returns the result together with the provider state after
the call. -/
def CacheProvider.add_move (st : CacheState) (game_id : Nat) (new_move : Move) :
    Option (Except CacheProviderErrorKind Unit × CacheState) :=
  match st.hash_map game_id with
  | none => some (Except.error CacheProviderErrorKind.KeyNotFound, st)
  | some game_data =>
    let new_game_data := game_data ++ [new_move]
    let st1 := { st with hash_map := st.hash_map.set game_id new_game_data }
    match notify_channels (st1.channels game_id) new_game_data with
    | none => none
    | some cs' => some (Except.ok (), st1.set_channels game_id cs')

/-- CacheProvider::create_game with an explicit id (the None branch draws
a fresh random Uuid and is not modelled): occupied entries are rejected
with GameExists, vacant entries are filled with an empty GameData. -/
def CacheProvider.create_game (st : CacheState) (game_id : Nat) :
    Except CacheProviderErrorKind Nat × CacheState :=
  match st.hash_map game_id with
  | some _ => (Except.error CacheProviderErrorKind.GameExists, st)
  | none => (Except.ok game_id, { st with hash_map := st.hash_map.set game_id [] })

/-- CacheProvider::subscribe_to_game: a fresh watch channel is seeded with
the current snapshot and registered; the error of get_game_data (absent
game) propagates to the caller.  The first component is the read side's
initial value. -/
def CacheProvider.subscribe_to_game (st : CacheState) (game_id : Nat) :
    Except CacheProviderErrorKind (List Move) × CacheState :=
  match CacheProvider.get_game_data st game_id with
  | Except.error e => (Except.error e, st)
  | Except.ok game_data =>
    let tx : WatchChannel := ⟨false, game_data⟩
    (Except.ok game_data, st.set_channels game_id (st.channels game_id ++ [tx]))

/-! ## src/data_provider/providers/redis_provider.rs

The networked provider against a single remote store, on the failure-free
connection path (connection/query/serialization errors are environmental
and not modelled; what is modelled is the provider's own logic). -/

/-- enum ErrorKind of the redis provider (messages dropped). -/
inductive RedisErrorKind : Type
  | Connection : RedisErrorKind
  | Query : RedisErrorKind
  | Deserialize : RedisErrorKind
  | Serialize : RedisErrorKind
  deriving DecidableEq, Repr

/-- RedisProvider::get_game_data: JSON.ARRLEN errors when the key is
absent; a present key's history is deserialized (an empty history is
rebuilt as a fresh GameData). -/
def RedisProvider.get_game_data (s : Store) (game_id : Nat) :
    Except RedisErrorKind (List Move) :=
  match s game_id with
  | none => Except.error RedisErrorKind.Query
  | some moves => Except.ok moves

/-- RedisProvider::create_game with an explicit id: an unconditional
JSON.SET of a fresh empty GameData — no existence check, an existing
entry is silently overwritten. -/
def RedisProvider.create_game (s : Store) (game_id : Nat) :
    Except RedisErrorKind Nat × Store :=
  (Except.ok game_id, s.set game_id [])

/-- RedisProvider::add_move: JSON.ARRAPPEND of the move, then PUBLISH of
the resulting full GameData (the publication itself has no effect on the
store). -/
def RedisProvider.add_move (s : Store) (game_id : Nat) (new_move : Move) :
    Except RedisErrorKind Unit × Store :=
  match s game_id with
  | none => (Except.error RedisErrorKind.Query, s)
  | some moves => (Except.ok (), s.set game_id (moves ++ [new_move]))

/-- RedisProvider::subscribe_to_game: no existence check; the watch
channel handed back is seeded with GameData::new_with_id(game_id), i.e.
an empty move list, and later values only arrive asynchronously from the
pub/sub task.  The result is the stream's initial value. -/
def RedisProvider.subscribe_to_game (_s : Store) (_game_id : Nat) :
    Except RedisErrorKind (List Move) :=
  Except.ok []

/-- The index-by-index reconciliation loop body of
RedisProvider::sync_board, acting on (local_moves, moves_to_upload):
an index past the current local length adopts the remote move, an index
past the remote length queues the local move for upload, and an index
present in both is overwritten by the remote move. -/
def sync_step (remote_moves : List Move) (st : List Move × List Move)
    (move_index : Nat) : List Move × List Move :=
  let local_moves := st.1
  let moves_to_upload := st.2
  if local_moves.length ≤ move_index then
    (local_moves ++ [remote_moves.getD move_index (Move.new (0, 0) Player.X)],
     moves_to_upload)
  else if remote_moves.length ≤ move_index then
    (local_moves,
     moves_to_upload ++ [local_moves.getD move_index (Move.new (0, 0) Player.X)])
  else
    (local_moves.set move_index (remote_moves.getD move_index (Move.new (0, 0) Player.X)),
     moves_to_upload)

/-- The reconciliation loop of RedisProvider::sync_board over
0..max(local len, remote len). -/
def sync_merge (local_moves remote_moves : List Move) : List Move × List Move :=
  (List.range (max local_moves.length remote_moves.length)).foldl
    (sync_step remote_moves) (local_moves, [])

/-- RedisProvider::sync_board: create the remote game when absent, stop
when histories already agree, otherwise merge with remote priority,
replace the local board by replaying the merged history (none models the
panic of `From<GameData>` on an invalid merged history), and upload the
queued local-only moves in order.  Returns (new local board, new remote
history). -/
def RedisProvider.sync_board (game : Board) (remote : Option (List Move)) :
    Option (Board × List Move) :=
  let remote_moves : List Move :=
    match remote with
    | none => []
    | some r => r
  if game.moves = remote_moves then some (game, remote_moves)
  else
    let (merged, moves_to_upload) := sync_merge game.moves remote_moves
    match Board.fromGameData ⟨merged, game.game_id⟩ with
    | none => none
    | some game' => some (game', remote_moves ++ moves_to_upload)

/-! ## Helper lemmas: check_matrix -/

/-- The claim-side reading of a winning line: the line is all-Occupied by
one player. -/
def spec_line_winner (line : List Field) : Option Player :=
  match line with
  | [Field.Occupied a, Field.Occupied b, Field.Occupied c] =>
    if a = b ∧ b = c then some a else none
  | _ => none

theorem spec_line_winner_eq_some {line : List Field} {p : Player} :
    spec_line_winner line = some p ↔
      line = [Field.Occupied p, Field.Occupied p, Field.Occupied p] := by
  match line with
  | [] | [_] | [_, _] | _ :: _ :: _ :: _ :: _ =>
    simp [spec_line_winner]
  | [a, b, c] =>
    cases a <;> cases b <;> cases c <;>
      simp only [spec_line_winner] <;>
      constructor <;> intro h <;> simp_all

theorem get_winner_in_row_three :
    ∀ a b c : Field, get_winner_in_row [a, b, c] = spec_line_winner [a, b, c] := by
  decide

theorem register_some (w : Player) (p : Option Player) :
    WinnerRegisterer.register (some w) p = some w := rfl

theorem register_none (p : Option Player) :
    WinnerRegisterer.register none p = p := by
  cases p <;> rfl

theorem register_foldl_some (f : List Field → Option Player)
    (L : List (List Field)) (w : Player) :
    L.foldl (fun acc line => WinnerRegisterer.register acc (f line)) (some w) = some w := by
  induction L with
  | nil => rfl
  | cons l L ih => rw [List.foldl_cons, register_some]; exact ih

theorem register_foldl_eq_findSome? (f : List Field → Option Player)
    (L : List (List Field)) :
    L.foldl (fun acc line => WinnerRegisterer.register acc (f line)) none =
      L.findSome? f := by
  induction L with
  | nil => rfl
  | cons l L ih =>
    rw [List.foldl_cons, List.findSome?_cons, register_none]
    cases h : f l with
    | none => exact ih
    | some w => exact register_foldl_some f L w

theorem scan_lines_winner_eq (m : Mat3 Field) :
    (scan_lines m).findSome? get_winner_in_row =
      (scan_lines m).findSome? spec_line_winner := by
  simp only [scan_lines, diag_of, anti_diag_of, row_of, col_of,
    List.findSome?_cons, List.findSome?_nil, get_winner_in_row_three]

/-- check_matrix, characterised by the spec's description: the winner is
the player of the first all-Occupied line in scan order; with no winner,
Draw iff no cell is Vacant, else InProgress(next_player). -/
theorem check_matrix_eq_spec (m : Mat3 Field) (next_player : Player) :
    check_matrix m next_player =
      match (scan_lines m).findSome? spec_line_winner with
      | some w => GameState.Won w
      | none =>
        if (matrix_cells m).all (fun f => decide (¬f = Field.Vacant)) then GameState.Draw
        else GameState.InProgress next_player := by
  unfold check_matrix
  rw [register_foldl_eq_findSome?, scan_lines_winner_eq]

theorem mem_matrix_cells (m : Mat3 Field) (i j : Fin 3) :
    m i j ∈ matrix_cells m := by
  fin_cases i <;> fin_cases j <;> simp [matrix_cells, row_of]

/-! ## Helper lemmas: Mat3 -/

theorem Mat3.nget_lt {α : Type} (m : Mat3 α) (i j : Nat) (hi : i < 3) (hj : j < 3) :
    Mat3.nget m i j = some (m ⟨i, hi⟩ ⟨j, hj⟩) := by
  simp [Mat3.nget, hi, hj]

theorem Mat3.nget_nmodify {α : Type} (m : Mat3 α) (i j : Nat) (g : α → α)
    (i' j' : Nat) :
    Mat3.nget (Mat3.nmodify m i j g) i' j' =
      if i' = i ∧ j' = j then (Mat3.nget m i j).map g else Mat3.nget m i' j' := by
  unfold Mat3.nget Mat3.nmodify
  by_cases hii : i' = i ∧ j' = j
  · obtain ⟨rfl, rfl⟩ := hii
    by_cases hi : i' < 3 <;> by_cases hj : j' < 3 <;> simp [hi, hj]
  · rw [if_neg hii]
    by_cases hi : i' < 3 <;> by_cases hj : j' < 3 <;> simp [hi, hj]
    intro h1 h2
    exact absurd ⟨h1, h2⟩ hii

/-! ## Helper lemmas: validate_move, insert_move, replay -/

theorem get_subboard_for_move_eq (c : Coordinates) :
    Board.get_subboard_for_move c =
      some ((c.1 / 3, c.2 / 3), (c.1 - c.1 / 3 * 3, c.2 - c.2 / 3 * 3)) := rfl

theorem validate_move_ok_inv {b : Board} {m : Move}
    (h : b.validate_move m = Except.ok ()) :
    b.get_next_player = m.player ∧ (b.get_state).is_in_progress = true ∧
    m.coordinates.1 < 9 ∧ m.coordinates.2 < 9 ∧
    b.cellAt m.coordinates = some Field.Vacant ∧
    m.coordinates ∈ b.get_allowed_moves := by
  unfold Board.validate_move at h
  split_ifs at h with h1 h2 h3 h4 h5
  refine ⟨not_not.mp h1, by simpa using h2, ?_, ?_, not_not.mp h4, h5⟩
  · have := fun hle => h3 (Or.inl hle)
    simpa [Board.SIZE, SubBoard.SIZE, Nat.not_le] using this
  · have := fun hle => h3 (Or.inr hle)
    simpa [Board.SIZE, SubBoard.SIZE, Nat.not_le] using this

theorem insert_move_of_validate_error {b : Board} {c : Coordinates} {p : Player}
    {e : InvalidMove} (h : b.validate_move (Move.new c p) = Except.error e) :
    b.insert_move c p = (Except.error e, b) := by
  simp only [Board.insert_move, h]

theorem insert_move_of_validate_ok {b : Board} {c : Coordinates} {p : Player}
    (h : b.validate_move (Move.new c p) = Except.ok ()) :
    b.insert_move c p =
      (Except.ok (),
       { b with
          moves := b.moves ++ [Move.new c p],
          data := Mat3.nmodify b.data (c.1 / 3) (c.2 / 3) fun sb =>
            { sb with
               data := Mat3.nmodify sb.data (c.1 - c.1 / 3 * 3) (c.2 - c.2 / 3 * 3)
                 fun _ => Field.Occupied p } }) := by
  simp only [Board.insert_move, h, Board.render_move, Board.get_subboard_for_move]
  rfl

theorem insert_move_ok_inv {b b' : Board} {c : Coordinates} {p : Player} {u : Unit}
    (h : b.insert_move c p = (Except.ok u, b')) :
    b.validate_move (Move.new c p) = Except.ok () ∧
    b'.moves = b.moves ++ [Move.new c p] ∧ b'.game_id = b.game_id ∧
    b'.data = Mat3.nmodify b.data (c.1 / 3) (c.2 / 3) fun sb =>
      { sb with
         data := Mat3.nmodify sb.data (c.1 - c.1 / 3 * 3) (c.2 - c.2 / 3 * 3)
           fun _ => Field.Occupied p } := by
  cases hv : b.validate_move (Move.new c p) with
  | error e =>
    rw [insert_move_of_validate_error hv] at h
    injection h with h1 h2
    exact Except.noConfusion h1
  | ok v =>
    cases v
    rw [insert_move_of_validate_ok hv] at h
    injection h with h1 h2
    subst h2
    exact ⟨rfl, rfl, rfl, rfl⟩

theorem insert_move_error_inv {b b' : Board} {c : Coordinates} {p : Player}
    {e : InvalidMove} (h : b.insert_move c p = (Except.error e, b')) :
    b.validate_move (Move.new c p) = Except.error e ∧ b' = b := by
  cases hv : b.validate_move (Move.new c p) with
  | error e' =>
    rw [insert_move_of_validate_error hv] at h
    injection h with h1 h2
    injection h1 with h3
    subst h3
    exact ⟨rfl, h2.symm⟩
  | ok v =>
    cases v
    rw [insert_move_of_validate_ok hv] at h
    injection h with h1 h2
    exact Except.noConfusion h1

theorem Move.new_eta (m : Move) : Move.new m.coordinates m.player = m := rfl

theorem replay_nil (b : Board) : Board.replay b [] = some b := rfl

theorem replay_cons (b : Board) (m : Move) (ms : List Move) :
    Board.replay b (m :: ms) =
      match b.insert_move m.coordinates m.player with
      | (Except.ok _, b') => Board.replay b' ms
      | (Except.error _, _) => none := by
  cases h : b.insert_move m.coordinates m.player with
  | mk r b' =>
    cases r with
    | ok u =>
      simp only [Board.replay, List.foldlM_cons, h, Option.bind_eq_bind, Option.some_bind]
    | error e =>
      simp only [Board.replay, List.foldlM_cons, h, Option.bind_eq_bind, Option.none_bind]

theorem replay_moves : ∀ (ms : List Move) (b b' : Board),
    Board.replay b ms = some b' → b'.moves = b.moves ++ ms ∧ b'.game_id = b.game_id := by
  intro ms
  induction ms with
  | nil =>
    intro b b' h
    rw [replay_nil] at h
    injection h with h1
    subst h1
    simp
  | cons m ms ih =>
    intro b b' h
    rw [replay_cons] at h
    cases hi : b.insert_move m.coordinates m.player with
    | mk r b1 =>
      rw [hi] at h
      cases r with
      | error e => exact Option.noConfusion h
      | ok u =>
        obtain ⟨-, hmv, hgid, -⟩ := insert_move_ok_inv hi
        obtain ⟨ih1, ih2⟩ := ih b1 b' h
        constructor
        · rw [ih1, hmv]
          simp [Move.new_eta]
        · rw [ih2, hgid]

theorem applyMoves_inv {id : Nat} {ms : List Move} {b : Board}
    (h : Board.applyMoves id ms = some b) :
    b.moves = ms ∧ b.game_id = id := by
  obtain ⟨h1, h2⟩ := replay_moves ms (Board.new_with_id id) b h
  simpa [Board.new_with_id] using ⟨h1, h2⟩

/-- A legal move sequence from a given board: every move in turn passes
validate_move against the board built so far. -/
def Board.legal_seq : Board → List Move → Prop
  | _, [] => True
  | b, m :: rest =>
    b.validate_move m = Except.ok () ∧
      Board.legal_seq (b.insert_move m.coordinates m.player).2 rest

theorem replay_isSome_iff : ∀ (ms : List Move) (b : Board),
    (Board.replay b ms).isSome = true ↔ Board.legal_seq b ms := by
  intro ms
  induction ms with
  | nil =>
    intro b
    simp [replay_nil, Board.legal_seq]
  | cons m ms ih =>
    intro b
    rw [replay_cons]
    cases hi : b.insert_move m.coordinates m.player with
    | mk r b1 =>
      cases r with
      | error e =>
        obtain ⟨hv, -⟩ := insert_move_error_inv hi
        have hv' : b.validate_move m = Except.error e := hv
        simp [Board.legal_seq, hv']
      | ok u =>
        obtain ⟨hv, -⟩ := insert_move_ok_inv hi
        have hv' : b.validate_move m = Except.ok () := hv
        simp only [Board.legal_seq, hi, hv', ih b1, true_and]

theorem cellAt_eq (b : Board) (c : Coordinates) :
    b.cellAt c = (Mat3.nget b.data (c.1 / 3) (c.2 / 3)).bind
      (fun sb => Mat3.nget sb.data (c.1 - c.1 / 3 * 3) (c.2 - c.2 / 3 * 3)) := by
  cases h : Mat3.nget b.data (c.1 / 3) (c.2 / 3) <;>
    simp [Board.cellAt, get_subboard_for_move_eq, h]

theorem cellAt_insert_move {b b' : Board} {c : Coordinates} {p : Player} {u : Unit}
    (h : b.insert_move c p = (Except.ok u, b')) (c' : Coordinates) :
    b'.cellAt c' = if c' = c then some (Field.Occupied p) else b.cellAt c' := by
  obtain ⟨hv, -, -, hdata⟩ := insert_move_ok_inv h
  obtain ⟨-, -, hc1, hc2, -, -⟩ := validate_move_ok_inv hv
  have hb1 : c.1 < 9 := hc1
  have hb2 : c.2 < 9 := hc2
  have h3 : c.1 / 3 < 3 := by omega
  have h4 : c.2 / 3 < 3 := by omega
  rw [cellAt_eq, cellAt_eq, hdata, Mat3.nget_nmodify]
  by_cases hq : c'.1 / 3 = c.1 / 3 ∧ c'.2 / 3 = c.2 / 3
  · rw [if_pos hq, Mat3.nget_lt b.data _ _ h3 h4, Option.map_some', Option.some_bind]
    rw [Mat3.nget_nmodify]
    by_cases hc : c' = c
    · subst hc
      rw [if_pos ⟨rfl, rfl⟩, if_pos rfl]
      have h5 : c'.1 - c'.1 / 3 * 3 < 3 := by omega
      have h6 : c'.2 - c'.2 / 3 * 3 < 3 := by omega
      rw [Mat3.nget_lt _ _ _ h5 h6, Option.map_some']
    · have hne : ¬(c'.1 - c'.1 / 3 * 3 = c.1 - c.1 / 3 * 3 ∧
          c'.2 - c'.2 / 3 * 3 = c.2 - c.2 / 3 * 3) := by
        intro hr
        apply hc
        have e1 : c'.1 = c.1 := by omega
        have e2 : c'.2 = c.2 := by omega
        exact Prod.ext e1 e2
      rw [if_neg hne, if_neg hc, hq.1, hq.2, Mat3.nget_lt b.data _ _ h3 h4, Option.some_bind]
  · rw [if_neg hq]
    have hc : c' ≠ c := by
      intro hc
      exact hq (by rw [hc]; exact ⟨rfl, rfl⟩)
    rw [if_neg hc]

/-- Claim C1: on a Board reached by legal moves, insert_move either
succeeds — appending the move to the move list, keeping the game id, and
setting exactly the target cell to Occupied(player) — or returns one of
the five typed rejections and hands back the Board completely unchanged:
there is no partial mutation on failure. -/
theorem claim_C1_insert_move_atomic (id : Nat) (ms : List Move) (b : Board)
    (_hb : Board.applyMoves id ms = some b) (c : Coordinates) (p : Player) :
    (∃ b', b.insert_move c p = (Except.ok (), b') ∧
        b'.moves = b.moves ++ [Move.new c p] ∧ b'.game_id = b.game_id ∧
        b'.cellAt c = some (Field.Occupied p) ∧
        ∀ c' : Coordinates, c' ≠ c → b'.cellAt c' = b.cellAt c') ∨
    (∃ e, b.insert_move c p = (Except.error e, b) ∧
        (e = InvalidMove.NotYourTurn ∨ e = InvalidMove.GameEnded ∨
         e = InvalidMove.OutOfBounds ∨ e = InvalidMove.FieldOccupied ∨
         e = InvalidMove.SubBoardNotActive)) := by
  clear _hb
  cases hi : b.insert_move c p with
  | mk r b' =>
    cases r with
    | ok u =>
      cases u
      left
      obtain ⟨-, hmv, hgid, -⟩ := insert_move_ok_inv hi
      refine ⟨b', rfl, hmv, hgid, ?_, ?_⟩
      · rw [cellAt_insert_move hi c, if_pos rfl]
      · intro c' hc'
        rw [cellAt_insert_move hi c', if_neg hc']
    | error e =>
      right
      obtain ⟨-, rfl⟩ := insert_move_error_inv hi
      refine ⟨e, rfl, ?_⟩
      cases e
      · exact Or.inr (Or.inr (Or.inr (Or.inl rfl)))
      · exact Or.inr (Or.inr (Or.inr (Or.inr rfl)))
      · exact Or.inr (Or.inl rfl)
      · exact Or.inr (Or.inr (Or.inl rfl))
      · exact Or.inl rfl

/-- Witness for C1 at the empty board and the move (0,0) by X. -/
theorem claim_C1_witness :
    Board.applyMoves 0 [] = some (Board.new_with_id 0) ∧
    ((∃ b', (Board.new_with_id 0).insert_move (0, 0) Player.X = (Except.ok (), b') ∧
        b'.moves = (Board.new_with_id 0).moves ++ [Move.new (0, 0) Player.X] ∧
        b'.game_id = (Board.new_with_id 0).game_id ∧
        b'.cellAt (0, 0) = some (Field.Occupied Player.X) ∧
        ∀ c' : Coordinates, c' ≠ (0, 0) →
          b'.cellAt c' = (Board.new_with_id 0).cellAt c') ∨
    (∃ e, (Board.new_with_id 0).insert_move (0, 0) Player.X = (Except.error e, Board.new_with_id 0) ∧
        (e = InvalidMove.NotYourTurn ∨ e = InvalidMove.GameEnded ∨
         e = InvalidMove.OutOfBounds ∨ e = InvalidMove.FieldOccupied ∨
         e = InvalidMove.SubBoardNotActive))) :=
  ⟨rfl, claim_C1_insert_move_atomic 0 [] (Board.new_with_id 0) rfl (0, 0) Player.X⟩

/-- Claim C5: projecting a legally built Board to GameData and replaying
that GameData into a fresh Board succeeds and yields a Board with an
identical move list and an identical GameState (round-trip law). -/
theorem claim_C5_round_trip (id : Nat) (ms : List Move) (b : Board)
    (hb : Board.applyMoves id ms = some b) :
    ∃ b2, Board.fromGameData (Board.toGameData b) = some b2 ∧
      b2.moves = b.moves ∧ b2.get_state = b.get_state := by
  obtain ⟨h1, h2⟩ := applyMoves_inv hb
  refine ⟨b, ?_, rfl, rfl⟩
  show Board.applyMoves b.game_id b.moves = some b
  rw [h1, h2]
  exact hb

/-- Witness for C5 on the one-move game X(0,0). -/
theorem claim_C5_witness :
    Board.applyMoves 0 [Move.new (0, 0) Player.X] =
      some (((Board.new_with_id 0).insert_move (0, 0) Player.X).2) ∧
    ∃ b2,
      Board.fromGameData
          (Board.toGameData (((Board.new_with_id 0).insert_move (0, 0) Player.X).2)) = some b2 ∧
      b2.moves = (((Board.new_with_id 0).insert_move (0, 0) Player.X).2).moves ∧
      b2.get_state = (((Board.new_with_id 0).insert_move (0, 0) Player.X).2).get_state :=
  ⟨rfl, claim_C5_round_trip 0 [Move.new (0, 0) Player.X] _ rfl⟩

/-- Claim C4: check_matrix returns Won(P) exactly for the player of the
first all-Occupied(P) line in the fixed scan order (main diagonal,
anti-diagonal, rows top-to-bottom, columns left-to-right); later complete
lines are ignored.  With no complete line it returns Draw when no cell is
Vacant and InProgress(next_player) otherwise. -/
theorem claim_C4_check_matrix_first_line (m : Mat3 Field) (next_player : Player) :
    check_matrix m next_player =
      match (scan_lines m).findSome? spec_line_winner with
      | some p => GameState.Won p
      | none =>
        if ∀ f ∈ matrix_cells m, f ≠ Field.Vacant then GameState.Draw
        else GameState.InProgress next_player := by
  rw [check_matrix_eq_spec]
  cases (scan_lines m).findSome? spec_line_winner with
  | some p => rfl
  | none =>
    refine if_congr ?_ rfl rfl
    simp

/-- Claim C2: on any Board reached by legal moves, while no winning line
exists on the abstracted super-board and some abstracted cell is still
Vacant, get_state is InProgress with next_player the opponent of the last
applied move's player (X when no move was applied yet). -/
theorem claim_C2_in_progress_next_player (id : Nat) (ms : List Move) (b : Board)
    (hb : Board.applyMoves id ms = some b)
    (hnw : ∀ line ∈ scan_lines b.get_abstracted_board, ∀ p : Player,
      line ≠ [Field.Occupied p, Field.Occupied p, Field.Occupied p])
    (hvac : ∃ i j : Fin 3, b.get_abstracted_board i j = Field.Vacant) :
    b.get_state =
      GameState.InProgress
        (match ms.getLast? with
         | some lm => lm.player.other
         | none => Player.X) := by
  obtain ⟨hm, -⟩ := applyMoves_inv hb
  have hnp : b.get_next_player =
      (match ms.getLast? with
       | some lm => lm.player.other
       | none => Player.X) := by
    unfold Board.get_next_player
    rw [hm]
  have hfs : (scan_lines b.get_abstracted_board).findSome? spec_line_winner = none := by
    rw [List.findSome?_eq_none_iff]
    intro line hl
    cases hsl : spec_line_winner line with
    | none => rfl
    | some p => exact absurd (spec_line_winner_eq_some.mp hsl) (hnw line hl p)
  have hall :
      ¬((matrix_cells b.get_abstracted_board).all
          (fun f => decide (¬f = Field.Vacant)) = true) := by
    obtain ⟨i, j, hij⟩ := hvac
    intro hcontra
    rw [List.all_eq_true] at hcontra
    have := hcontra _ (mem_matrix_cells b.get_abstracted_board i j)
    rw [hij] at this
    simp at this
  show check_matrix b.get_abstracted_board b.get_next_player = _
  rw [check_matrix_eq_spec, hfs, hnp]
  simp only [hall, if_neg]
  simp

/-- Witness for C2 at the empty board. -/
theorem claim_C2_witness :
    Board.applyMoves 0 [] = some (Board.new_with_id 0) ∧
    (∀ line ∈ scan_lines (Board.new_with_id 0).get_abstracted_board, ∀ p : Player,
      line ≠ [Field.Occupied p, Field.Occupied p, Field.Occupied p]) ∧
    (∃ i j : Fin 3, (Board.new_with_id 0).get_abstracted_board i j = Field.Vacant) ∧
    (Board.new_with_id 0).get_state =
      GameState.InProgress
        (match ([] : List Move).getLast? with
         | some lm => lm.player.other
         | none => Player.X) :=
  ⟨rfl, by decide, ⟨0, 0, rfl⟩,
    claim_C2_in_progress_next_player 0 [] (Board.new_with_id 0) rfl (by decide)
      ⟨0, 0, rfl⟩⟩

/-! ## Helper lemmas: get_allowed_moves -/

theorem mem_full_board_coords (c : Coordinates) :
    c ∈ full_board_coords ↔ c.1 < 9 ∧ c.2 < 9 := by
  cases c with
  | mk a b =>
    simp only [full_board_coords, List.mem_flatMap, List.mem_map, List.mem_range,
      Board.SIZE, SubBoard.SIZE, Prod.mk.injEq]
    constructor
    · rintro ⟨r, hr, col, hcol, rfl, rfl⟩
      exact ⟨hr, hcol⟩
    · rintro ⟨h1, h2⟩
      exact ⟨a, h1, b, h2, rfl, rfl⟩

theorem mem_get_allowed_moves (b : Board) (c : Coordinates) :
    c ∈ b.get_allowed_moves ↔
      c.1 < 9 ∧ c.2 < 9 ∧
        b.allowed_move_check (b.limiting_subboard b.get_abstracted_board)
          b.get_abstracted_board c = true := by
  unfold Board.get_allowed_moves
  rw [List.mem_filter, mem_full_board_coords, and_assoc]

theorem allowed_move_check_eq (b : Board) (L : Option Coordinates)
    (A : Mat3 Field) (c : Coordinates) :
    b.allowed_move_check L A c = true ↔
      (L = none ∨ some (c.1 / 3, c.2 / 3) = L) ∧
      Mat3.nget A (c.1 / 3) (c.2 / 3) = some Field.Vacant ∧
      b.cellAt c = some Field.Vacant := by
  unfold Board.allowed_move_check
  rw [get_subboard_for_move_eq]
  cases h : Mat3.nget b.data (c.1 / 3) (c.2 / 3) with
  | none => simp [cellAt_eq, h]
  | some sb => simp [cellAt_eq, h, and_assoc]

theorem limiting_subboard_none (b : Board) (A : Mat3 Field)
    (h : b.moves.getLast? = none) : b.limiting_subboard A = none := by
  unfold Board.limiting_subboard
  rw [h]

theorem limiting_subboard_last (b : Board) (A : Mat3 Field) (lm : Move)
    (h : b.moves.getLast? = some lm) :
    b.limiting_subboard A =
      if Mat3.nget A (lm.coordinates.1 - lm.coordinates.1 / 3 * 3)
          (lm.coordinates.2 - lm.coordinates.2 / 3 * 3) = some Field.Vacant then
        some (lm.coordinates.1 - lm.coordinates.1 / 3 * 3,
              lm.coordinates.2 - lm.coordinates.2 / 3 * 3)
      else none := by
  unfold Board.limiting_subboard
  simp only [h, get_subboard_for_move_eq]

theorem new_with_id_abstracted (id : Nat) (i j : Fin 3) :
    (Board.new_with_id id).get_abstracted_board i j = Field.Vacant := rfl

theorem new_with_id_cellAt (id : Nat) (c : Coordinates)
    (h1 : c.1 < 9) (h2 : c.2 < 9) :
    (Board.new_with_id id).cellAt c = some Field.Vacant := by
  have q1 : c.1 / 3 < 3 := by omega
  have q2 : c.2 / 3 < 3 := by omega
  have r1 : c.1 - c.1 / 3 * 3 < 3 := by omega
  have r2 : c.2 - c.2 / 3 * 3 < 3 := by omega
  rw [cellAt_eq, Mat3.nget_lt _ _ _ q1 q2, Option.some_bind, Mat3.nget_lt _ _ _ r1 r2]
  rfl

/-- Claim C3: the allowed-move set.  For the empty Board every in-bounds
cell is allowed.  For a non-empty Board, the local position of the last
move names the target sub-board: while its abstracted state is Vacant,
exactly the Vacant cells inside it are allowed; once it is decided, exactly
the Vacant cells of every sub-board with Vacant abstracted state are
allowed.  An in-turn move on a Vacant in-bounds cell outside this allowed
set is rejected with SubBoardNotActive. -/
theorem claim_C3_allowed_moves (id : Nat) (ms : List Move) (b : Board)
    (hb : Board.applyMoves id ms = some b) :
    (b.moves = [] → ∀ c : Coordinates,
        c ∈ b.get_allowed_moves ↔ c.1 < 9 ∧ c.2 < 9) ∧
    (∀ lm, b.moves.getLast? = some lm →
      ∀ fi : Coordinates,
        fi = (lm.coordinates.1 - lm.coordinates.1 / 3 * 3,
              lm.coordinates.2 - lm.coordinates.2 / 3 * 3) →
        ((Mat3.nget b.get_abstracted_board fi.1 fi.2 = some Field.Vacant →
           ∀ c : Coordinates, c ∈ b.get_allowed_moves ↔
             c.1 < 9 ∧ c.2 < 9 ∧ (c.1 / 3, c.2 / 3) = fi ∧
             b.cellAt c = some Field.Vacant) ∧
         (Mat3.nget b.get_abstracted_board fi.1 fi.2 ≠ some Field.Vacant →
           ∀ c : Coordinates, c ∈ b.get_allowed_moves ↔
             c.1 < 9 ∧ c.2 < 9 ∧
             Mat3.nget b.get_abstracted_board (c.1 / 3) (c.2 / 3) = some Field.Vacant ∧
             b.cellAt c = some Field.Vacant))) ∧
    (∀ m : Move, m.player = b.get_next_player →
      (b.get_state).is_in_progress = true →
      m.coordinates.1 < 9 → m.coordinates.2 < 9 →
      b.cellAt m.coordinates = some Field.Vacant →
      m.coordinates ∉ b.get_allowed_moves →
      b.validate_move m = Except.error InvalidMove.SubBoardNotActive) := by
  refine ⟨?_, ?_, ?_⟩
  · intro hmoves c
    have hbeq : b = Board.new_with_id id := by
      obtain ⟨hm, -⟩ := applyMoves_inv hb
      rw [hmoves] at hm
      rw [← hm] at hb
      have hb' : some (Board.new_with_id id) = some b := hb
      injection hb' with hb''
      exact hb''.symm
    subst hbeq
    rw [mem_get_allowed_moves,
      limiting_subboard_none _ _ (show (Board.new_with_id id).moves.getLast? = none from rfl)]
    constructor
    · rintro ⟨h1, h2, -⟩
      exact ⟨h1, h2⟩
    · rintro ⟨h1, h2⟩
      have q1 : c.1 / 3 < 3 := by omega
      have q2 : c.2 / 3 < 3 := by omega
      refine ⟨h1, h2, (allowed_move_check_eq _ _ _ _).mpr ⟨Or.inl rfl, ?_, ?_⟩⟩
      · rw [Mat3.nget_lt _ _ _ q1 q2, new_with_id_abstracted]
      · exact new_with_id_cellAt id c h1 h2
  · intro lm hlast fi hfi
    subst hfi
    have hlim := limiting_subboard_last b b.get_abstracted_board lm hlast
    constructor
    · intro hvac c
      rw [if_pos hvac] at hlim
      rw [mem_get_allowed_moves, hlim, allowed_move_check_eq]
      constructor
      · rintro ⟨h1, h2, h3, h4, h5⟩
        rcases h3 with h3 | h3
        · exact Option.noConfusion h3
        · injection h3 with h3
          exact ⟨h1, h2, h3, h5⟩
      · rintro ⟨h1, h2, h3, h4⟩
        refine ⟨h1, h2, Or.inr (by rw [h3]), ?_, h4⟩
        have e1 : c.1 / 3 = lm.coordinates.1 - lm.coordinates.1 / 3 * 3 :=
          congrArg Prod.fst h3
        have e2 : c.2 / 3 = lm.coordinates.2 - lm.coordinates.2 / 3 * 3 :=
          congrArg Prod.snd h3
        rw [e1, e2]
        exact hvac
    · intro hvac c
      rw [if_neg hvac] at hlim
      rw [mem_get_allowed_moves, hlim, allowed_move_check_eq]
      constructor
      · rintro ⟨h1, h2, -, h4, h5⟩
        exact ⟨h1, h2, h4, h5⟩
      · rintro ⟨h1, h2, h3, h4⟩
        exact ⟨h1, h2, Or.inl rfl, h3, h4⟩
  · intro m hp hs h1 h2 hcell hnotmem
    unfold Board.validate_move
    rw [if_neg (by rw [hp]; exact fun h => h rfl)]
    rw [if_neg (by simp [hs])]
    rw [if_neg (by simp only [Board.SIZE, SubBoard.SIZE]; omega)]
    rw [if_neg (by rw [hcell]; exact fun h => h rfl)]
    rw [if_pos hnotmem]

/-- Witness for C3 at the empty board. -/
theorem claim_C3_witness :
    Board.applyMoves 0 [] = some (Board.new_with_id 0) ∧
    ((Board.new_with_id 0).moves = [] → ∀ c : Coordinates,
        c ∈ (Board.new_with_id 0).get_allowed_moves ↔ c.1 < 9 ∧ c.2 < 9) :=
  ⟨rfl, (claim_C3_allowed_moves 0 [] (Board.new_with_id 0) rfl).1⟩

/-! ## Helper lemmas: sync_merge -/

theorem sync_merge_loop (L R : List Move) :
    ∀ k, k ≤ max L.length R.length →
      (List.range k).foldl (sync_step R) (L, ([] : List Move)) =
        (R.take (min k R.length) ++ L.drop (min k R.length),
         (L.take (min k L.length)).drop R.length) := by
  intro k
  induction k with
  | zero =>
    intro _
    simp
  | succ k ih =>
    intro hk
    rw [List.range_succ, List.foldl_append, ih (by omega), List.foldl_cons, List.foldl_nil]
    by_cases hkR : k < R.length
    · by_cases hkL : k < L.length
      · -- index present in both lists: remote overwrites local in place
        have hmR : min k R.length = k := by omega
        have hmR1 : min (k + 1) R.length = k + 1 := by omega
        have hmL : min k L.length = k := by omega
        have hmL1 : min (k + 1) L.length = k + 1 := by omega
        rw [hmR, hmR1, hmL, hmL1]
        simp only [sync_step]
        rw [if_neg (by
          simp only [List.length_append, List.length_take, List.length_drop]
          omega)]
        rw [if_neg (by omega)]
        refine Prod.ext ?_ ?_
        · show (R.take k ++ L.drop k).set k (R.getD k (Move.new (0, 0) Player.X)) =
            R.take (k + 1) ++ L.drop (k + 1)
          rw [List.set_append_right _ _ (by rw [List.length_take]; omega)]
          have hlen : (R.take k).length = k := by rw [List.length_take]; omega
          rw [hlen, Nat.sub_self]
          rw [List.drop_eq_getElem_cons hkL, List.set_cons_zero]
          rw [List.getD_eq_getElem?_getD, List.getElem?_eq_getElem hkR, Option.getD_some]
          rw [List.take_succ, List.getElem?_eq_getElem hkR, Option.toList_some,
            List.append_assoc, List.singleton_append]
        · show (L.take k).drop R.length = (L.take (k + 1)).drop R.length
          rw [List.drop_eq_nil_of_le (by rw [List.length_take]; omega),
            List.drop_eq_nil_of_le (by rw [List.length_take]; omega)]
      · -- index past the local list: adopt the remote move
        have hL : L.length ≤ k := by omega
        have hmR : min k R.length = k := by omega
        have hmR1 : min (k + 1) R.length = k + 1 := by omega
        have hmL : min k L.length = L.length := by omega
        have hmL1 : min (k + 1) L.length = L.length := by omega
        rw [hmR, hmR1, hmL, hmL1]
        simp only [sync_step]
        rw [if_pos (by
          simp only [List.length_append, List.length_take, List.length_drop]
          omega)]
        refine Prod.ext ?_ rfl
        show (R.take k ++ L.drop k) ++ [R.getD k (Move.new (0, 0) Player.X)] =
          R.take (k + 1) ++ L.drop (k + 1)
        rw [List.drop_eq_nil_of_le hL, List.drop_eq_nil_of_le (by omega),
          List.append_nil, List.append_nil]
        rw [List.getD_eq_getElem?_getD, List.getElem?_eq_getElem hkR, Option.getD_some]
        rw [List.take_succ, List.getElem?_eq_getElem hkR]
        rfl
    · by_cases hkL : k < L.length
      · -- index past the remote list: queue the local move for upload
        have hR : R.length ≤ k := by omega
        have hmR : min k R.length = R.length := by omega
        have hmR1 : min (k + 1) R.length = R.length := by omega
        have hmL : min k L.length = k := by omega
        have hmL1 : min (k + 1) L.length = k + 1 := by omega
        rw [hmR, hmR1, hmL, hmL1]
        simp only [sync_step]
        rw [if_neg (by
          simp only [List.length_append, List.length_take, List.length_drop]
          omega)]
        rw [if_pos hR]
        refine Prod.ext rfl ?_
        show (L.take k).drop R.length ++
            [(R.take R.length ++ L.drop R.length).getD k (Move.new (0, 0) Player.X)] =
          (L.take (k + 1)).drop R.length
        rw [List.take_length]
        rw [List.getD_eq_getElem?_getD,
          List.getElem?_append_right (by omega),
          List.getElem?_drop]
        have hidx : R.length + (k - R.length) = k := by omega
        rw [hidx, List.getElem?_eq_getElem hkL, Option.getD_some]
        rw [List.take_succ, List.getElem?_eq_getElem hkL]
        rw [List.drop_append_eq_append_drop]
        have hlen : (L.take k).length = k := by rw [List.length_take]; omega
        rw [hlen]
        have hz : R.length - k = 0 := by omega
        rw [hz, List.drop_zero]
        rfl
      · omega

/-- The reconciliation loop in closed form: the merged history is the
whole remote history followed by the local moves past the remote length,
and exactly those trailing local-only moves are queued for upload. -/
theorem sync_merge_eq (L R : List Move) :
    sync_merge L R = (R ++ L.drop R.length, L.drop R.length) := by
  unfold sync_merge
  rw [sync_merge_loop L R (max L.length R.length) (le_refl _)]
  have h1 : min (max L.length R.length) R.length = R.length := by omega
  have h2 : min (max L.length R.length) L.length = L.length := by omega
  rw [h1, h2, List.take_length, List.take_length]

/-- sync_board against an explicit remote history, inverted. -/
theorem sync_board_some_inv (game : Board) (R0 : List Move)
    (game' : Board) (remote_after : List Move)
    (h : RedisProvider.sync_board game (some R0) = some (game', remote_after)) :
    game'.moves = remote_after ∧
    (∀ i : Nat, i < game.moves.length → i < R0.length →
      remote_after[i]? = R0[i]?) ∧
    remote_after = R0 ++ game.moves.drop R0.length := by
  simp only [RedisProvider.sync_board] at h
  by_cases heq : game.moves = R0
  · rw [if_pos heq] at h
    injection h with hpair
    injection hpair with h1 h2
    subst h1
    subst h2
    refine ⟨heq, fun i _ _ => rfl, ?_⟩
    rw [heq, List.drop_length, List.append_nil]
  · rw [if_neg heq] at h
    rw [sync_merge_eq] at h
    cases hf : Board.fromGameData
        ⟨R0 ++ game.moves.drop R0.length, game.game_id⟩ with
    | none =>
      rw [hf] at h
      exact Option.noConfusion h
    | some g2 =>
      rw [hf] at h
      injection h with hpair
      injection hpair with h1 h2
      subst h1
      subst h2
      obtain ⟨hm, -⟩ := applyMoves_inv hf
      refine ⟨hm, ?_, rfl⟩
      intro i hiL hiR
      rw [List.getElem?_append, if_pos hiR]

/-- Claim C6: after a successful sync_board with no concurrent writers,
the local and remote move histories are identical; at every index present
in both original histories the remote move is the one retained; and every
move that existed only locally has been appended to the remote store in
its original order. -/
theorem claim_C6_sync_board_convergence (game : Board) (remote : Option (List Move))
    (game' : Board) (remote_after : List Move)
    (h : RedisProvider.sync_board game remote = some (game', remote_after)) :
    game'.moves = remote_after ∧
    (∀ i : Nat, i < game.moves.length → i < (remote.getD []).length →
      remote_after[i]? = (remote.getD [])[i]?) ∧
    remote_after = remote.getD [] ++ game.moves.drop (remote.getD []).length := by
  cases remote with
  | none =>
    have h' : RedisProvider.sync_board game (some []) = some (game', remote_after) := h
    exact sync_board_some_inv game [] game' remote_after h'
  | some R0 =>
    exact sync_board_some_inv game R0 game' remote_after h

/-- Witness for C6: syncing an empty board against an existing empty
remote history. -/
theorem claim_C6_witness :
    RedisProvider.sync_board (Board.new_with_id 7) (some []) =
      some (Board.new_with_id 7, []) ∧
    ((Board.new_with_id 7).moves = ([] : List Move) ∧
     (∀ i : Nat, i < (Board.new_with_id 7).moves.length →
        i < ((some ([] : List Move)).getD []).length →
        (([] : List Move))[i]? = ((some ([] : List Move)).getD [])[i]?) ∧
     ([] : List Move) = (some ([] : List Move)).getD [] ++
        (Board.new_with_id 7).moves.drop ((some ([] : List Move)).getD []).length) :=
  ⟨rfl,
    claim_C6_sync_board_convergence (Board.new_with_id 7) (some [])
      (Board.new_with_id 7) [] rfl⟩

/-- The local board of the C10 scenario: the legal game X(0,0), O(1,1). -/
def c10_local_board : Board :=
  ((((Board.new_with_id 0).insert_move (0, 0) Player.X).2).insert_move (1, 1) Player.O).2

/-- Claim C10: GameData-to-Board conversion is partial — it succeeds
exactly on legal move sequences and panics (none) on any illegal one
instead of returning a typed error — and sync_board can construct such an
illegal merged history: against remote [X(4,4)], the local history
[X(0,0), O(1,1)] merges to [X(4,4), O(1,1)] (remote substituted at the
conflicting index 0, local move retained at index 1), whose replay
panics, so the whole sync panics. -/
theorem claim_C10_from_game_data_partial :
    (∀ gd : GameData, (Board.fromGameData gd).isSome = true ↔
        Board.legal_seq (Board.new_with_id gd.game_id) gd.moves) ∧
    c10_local_board.moves = [Move.new (0, 0) Player.X, Move.new (1, 1) Player.O] ∧
    Board.fromGameData
      ⟨[Move.new (4, 4) Player.X, Move.new (1, 1) Player.O], 0⟩ = none ∧
    RedisProvider.sync_board c10_local_board (some [Move.new (4, 4) Player.X]) = none := by
  refine ⟨?_, rfl, rfl, rfl⟩
  intro gd
  exact replay_isSome_iff gd.moves (Board.new_with_id gd.game_id)

/-! ## C7, C8, C9: provider behaviours at concrete stores -/

/-- A store holding one game (id 5) with one recorded move. -/
def store_with_game5 : Store :=
  Store.set (fun _ => none) 5 [Move.new (0, 0) Player.X]

/-- The same single-game situation for the in-memory provider. -/
def cache_state_with_game5 : CacheState :=
  ⟨Store.set (fun _ => none) 5 [Move.new (0, 0) Player.X], fun _ => []⟩

/-- Counterexample to C7: on the networked backend, create_game on the
in-use id 5 succeeds and resets the stored history to an empty game
instead of failing with GameExists and leaving the history unchanged. -/
theorem claim_C7_counterexample :
    (RedisProvider.create_game store_with_game5 5).1 = Except.ok 5 ∧
    (RedisProvider.create_game store_with_game5 5).2 5 = some [] ∧
    store_with_game5 5 = some [Move.new (0, 0) Player.X] :=
  ⟨rfl, rfl, rfl⟩

/-- C7 amended: only the in-memory backend rejects create on an existing
id with GameExists and leaves the store unchanged; the networked
backend's create_game is an unconditional JSON.SET that succeeds and
resets the stored game to a fresh empty history. -/
theorem claim_C7_amended_create (st : CacheState) (s : Store) (id : Nat)
    (ms : List Move) (h : st.hash_map id = some ms) :
    CacheProvider.create_game st id =
      (Except.error CacheProviderErrorKind.GameExists, st) ∧
    RedisProvider.create_game s id = (Except.ok id, s.set id []) := by
  constructor
  · simp only [CacheProvider.create_game, h]
  · rfl

/-- Witness for the amended C7 at the concrete one-game stores. -/
theorem claim_C7_witness :
    cache_state_with_game5.hash_map 5 = some [Move.new (0, 0) Player.X] ∧
    (CacheProvider.create_game cache_state_with_game5 5 =
       (Except.error CacheProviderErrorKind.GameExists, cache_state_with_game5) ∧
     RedisProvider.create_game store_with_game5 5 =
       (Except.ok 5, store_with_game5.set 5 [])) :=
  ⟨rfl,
    claim_C7_amended_create cache_state_with_game5 store_with_game5 5
      [Move.new (0, 0) Player.X] rfl⟩

/-- Counterexample to C8: the networked backend's subscribe does not fail
on the nonexistent id 9, and on the existing id 5 the stream's initial
value is the empty placeholder instead of the current snapshot. -/
theorem claim_C8_counterexample :
    store_with_game5 9 = none ∧
    RedisProvider.subscribe_to_game store_with_game5 9 = Except.ok [] ∧
    RedisProvider.get_game_data store_with_game5 5 =
      Except.ok [Move.new (0, 0) Player.X] ∧
    RedisProvider.subscribe_to_game store_with_game5 5 = Except.ok [] :=
  ⟨rfl, rfl, rfl, rfl⟩

/-- C8 amended: only the in-memory backend fails subscription on a
nonexistent game (KeyNotFound, state unchanged) and seeds the stream with
the current snapshot; the networked backend's subscribe never fails and
always seeds the stream with the empty placeholder GameData. -/
theorem claim_C8_amended_subscribe (st : CacheState) (s : Store) (id : Nat) :
    (st.hash_map id = none →
      CacheProvider.subscribe_to_game st id =
        (Except.error CacheProviderErrorKind.KeyNotFound, st)) ∧
    (∀ gd, st.hash_map id = some gd →
      (CacheProvider.subscribe_to_game st id).1 = Except.ok gd) ∧
    RedisProvider.subscribe_to_game s id = Except.ok [] := by
  refine ⟨?_, ?_, rfl⟩
  · intro h
    simp only [CacheProvider.subscribe_to_game, CacheProvider.get_game_data, h]
  · intro gd h
    simp only [CacheProvider.subscribe_to_game, CacheProvider.get_game_data, h]

/-- Witness for the amended C8 at the concrete one-game state. -/
theorem claim_C8_witness :
    (cache_state_with_game5.hash_map 9 = none ∧
     CacheProvider.subscribe_to_game cache_state_with_game5 9 =
       (Except.error CacheProviderErrorKind.KeyNotFound, cache_state_with_game5)) ∧
    (cache_state_with_game5.hash_map 5 = some [Move.new (0, 0) Player.X] ∧
     (CacheProvider.subscribe_to_game cache_state_with_game5 5).1 =
       Except.ok [Move.new (0, 0) Player.X]) :=
  ⟨⟨rfl,
    (claim_C8_amended_subscribe cache_state_with_game5 store_with_game5 9).1 rfl⟩,
   ⟨rfl,
    (claim_C8_amended_subscribe cache_state_with_game5 store_with_game5 5).2.1
      [Move.new (0, 0) Player.X] rfl⟩⟩

/-- The C9 scenario: game 5 exists and has two registered subscriber
channels, the first of which has a dropped receiver. -/
def cache_state_c9 : CacheState :=
  ⟨Store.set (fun _ => none) 5 [],
   fun k => if k = 5 then [⟨true, []⟩, ⟨false, []⟩] else []⟩

/-- The same scenario with every receiver alive. -/
def cache_state_c9_alive : CacheState :=
  ⟨Store.set (fun _ => none) 5 [],
   fun k => if k = 5 then [⟨false, []⟩, ⟨false, []⟩] else []⟩

/-- C9, evaluated on the code: add_move on a game with one
dropped-receiver subscriber panics (none) — the unwrap on the failed
watch send aborts the whole call after the map mutation, never reaching
the second subscriber — whereas the identical call with every receiver
alive succeeds.  The spec requires the first call to succeed too. -/
theorem claim_C9_send_unwrap_panics :
    CacheProvider.add_move cache_state_c9 5 (Move.new (0, 0) Player.X) = none ∧
    (CacheProvider.add_move cache_state_c9_alive 5
        (Move.new (0, 0) Player.X)).isSome = true :=
  ⟨rfl, rfl⟩

end Tictactoe
